import Mathlib

/-!
Shallow embedding of melange's package-emission core
(`pkg/build/package.go`): dependency generation from a built tree,
control-record rendering, digest fan-out, conditional signing and final
apk assembly, together with proofs about the behavioural claims of the
specification.  Every definition is translated from the Go source; the
surrounding collaborators (tarball writer, hash functions, RSA signer)
are abstracted as parameters, since only the byte streams they are fed
matter to the claims.
-/

namespace Melange

/-- `leadsWith pat l` holds when `pat` is an initial run of `l`
(the rune-list reading of Go's `strings.HasPrefix`). -/
def leadsWith : List Char → List Char → Bool
  | [], _ => true
  | _ :: _, [] => false
  | a :: as, b :: bs => a = b && leadsWith as bs

/-- `containsSub sub l` is Go's `strings.Contains` over rune lists:
some tail of `l` starts with `sub`. -/
def containsSub (sub : List Char) : List Char → Bool
  | [] => sub.isEmpty
  | c :: rest => leadsWith sub (c :: rest) || containsSub sub rest

/-- Go `strings.Contains s sub`. -/
def strContains (s sub : String) : Bool := containsSub sub.data s.data

/-- Model of Go `filepath.Base` for slash-separated paths: strip
trailing slashes, then keep the run after the last remaining slash. -/
def basename (path : String) : String :=
  if path.data = [] then "."
  else
    let s := (path.data.reverse.dropWhile (fun c => c = '/')).reverse
    if s = [] then "/"
    else String.mk ((s.reverse.takeWhile (fun c => c ≠ '/')).reverse)

/-- Fuel-indexed worker for Go `strings.Split` with a non-empty
separator: scan left to right, cutting at every non-overlapping
occurrence of `sep`.  The fuel bounds the number of characters
consumed; callers pass the length of the input, which suffices. -/
def goSplitAux (sep : List Char) : Nat → List Char → List (List Char)
  | _, [] => [[]]
  | 0, s => [s]
  | fuel + 1, c :: rest =>
    if leadsWith sep (c :: rest) then
      [] :: goSplitAux sep fuel ((c :: rest).drop sep.length)
    else
      match goSplitAux sep fuel rest with
      | [] => [[c]]
      | h :: t => (c :: h) :: t

/-- Go `strings.Split s sep` (for the non-empty separators used by the
source). -/
def goSplit (s sep : String) : List String :=
  (goSplitAux sep.data s.data.length s.data).map (fun l => String.mk l)

/-- The version suffix computed by the shared-object generator
(package.go lines 185-192): `parts[1]` of
`strings.Split(basename, ".so.")` when a second field exists, `"0"`
otherwise. -/
def soVersion (b : String) : String :=
  match goSplit b ".so." with
  | _ :: v :: _ => v
  | _ => "0"

/-- Byte-wise lexicographic comparison of rune lists; on UTF-8 encoded
strings this agrees with Go's byte-wise `sort.Strings` order because
UTF-8 preserves code-point order. -/
def lexLe : List Char → List Char → Bool
  | [], _ => true
  | _ :: _, [] => false
  | a :: as, b :: bs =>
    if a.toNat < b.toNat then true
    else if b.toNat < a.toNat then false
    else lexLe as bs

/-- The string order used by `sort.Strings` in `dedup`. -/
def strLe (a b : String) : Bool := lexLe a.data b.data

/-- The `Dependencies` slots filled in by the generators
(`Runtime` and `Provides` of the Go `Dependencies` struct). -/
structure Dependencies where
  Runtime : List String := []
  Provides : List String := []
  deriving DecidableEq, Repr

/-- The loop of `dedup` (package.go lines 116-123): walk the sorted
list keeping a `prev` cursor that starts at Go's zero string, skipping
any element equal to `prev`. -/
def dedupLoop (prev : String) : List String → List String
  | [] => []
  | cur :: rest =>
    if cur = prev then dedupLoop prev rest
    else cur :: dedupLoop cur rest

/-- `dedup` (package.go lines 112-126): sort lexicographically, then
collapse adjacent duplicates. -/
def dedup (l : List String) : List String :=
  dedupLoop "" (List.insertionSort (fun a b => strLe a b = true) l)

/-- The kind a walked directory entry reports through `fi.Mode()`. -/
inductive EntryKind where
  | regular
  | dir
  | symlink
  | other
  deriving DecidableEq, Repr

/-- One entry seen by `fs.WalkDir` over the workspace subtree:
its path, mode kind, permission bits, size, and the outcome of
`elf.Open` + `ImportedLibraries` on it (`none` when the file is not a
valid ELF object, `some libs` when it is). -/
structure WalkEntry where
  path : String
  kind : EntryKind
  perm : Nat
  size : Int
  elfLibs : Option (List String)
  deriving DecidableEq, Repr

/-- One step of the walk: either the walker reports an error for this
position (unreadable directory, failing `d.Info()`, ...) or it yields
an entry. -/
inductive WalkItem where
  | err (e : String)
  | entry (e : WalkEntry)
  deriving DecidableEq, Repr

/-- The per-package emission context (Go `PackageContext`), with the
fields of the referenced `Context` and `Origin` package flattened in:
`Origin*` fields come from `pc.Origin`, `Arch`/`SigningKey`/
`SigningPassphrase` from `pc.Context`. -/
structure PackageContext where
  PackageName : String
  OriginVersion : String
  OriginEpoch : Nat
  OriginDescription : String
  OriginCopyright : List String
  InstalledSize : Int := 0
  DataHash : String := ""
  OutDir : String
  Arch : String
  SigningKey : String
  SigningPassphrase : String
  Dependencies : Melange.Dependencies
  deriving DecidableEq, Repr

/-- `PackageContext.Identity` (package.go lines 70-72). -/
def Identity (pc : PackageContext) : String :=
  pc.PackageName ++ "-" ++ pc.OriginVersion ++ "-r" ++ toString pc.OriginEpoch

/-- `PackageContext.Filename` (package.go lines 74-76). -/
def Filename (pc : PackageContext) : String :=
  pc.OutDir ++ "/" ++ Identity pc ++ ".apk"

/-- `PackageContext.SignatureName` (package.go lines 106-108). -/
def SignatureName (pc : PackageContext) : String :=
  ".SIGN.RSA." ++ basename pc.SigningKey ++ ".pub"

/-- The configuration surrounding one emission: output directory,
architecture token (`ctx.Arch.ToAPK()`), signing key material and the
package definition fields used by `Subpackage.Emit`. -/
structure Context where
  OutDir : String
  Arch : String
  SigningKey : String
  SigningPassphrase : String
  PackageVersion : String
  PackageEpoch : Nat
  PackageDescription : String
  PackageCopyright : List String
  deriving DecidableEq, Repr

/-- `Subpackage.Emit` (package.go lines 58-67): build the
`PackageContext` for one (sub)package, joining the output directory
with the architecture token. -/
def mkPackageContext (ctx : Context) (name : String)
    (deps : Dependencies) : PackageContext :=
  { PackageName := name
    OriginVersion := ctx.PackageVersion
    OriginEpoch := ctx.PackageEpoch
    OriginDescription := ctx.PackageDescription
    OriginCopyright := ctx.PackageCopyright
    OutDir := ctx.OutDir ++ "/" ++ ctx.Arch
    Arch := ctx.Arch
    SigningKey := ctx.SigningKey
    SigningPassphrase := ctx.SigningPassphrase
    Dependencies := deps }

/-- The control template rendering (`controlTemplate` +
`GenerateControlData`, package.go lines 82-104), with Go
template whitespace trimming (`{{-`) applied.  The trailing
`datahash` group is parenthesized as the final syntactic block. -/
def GenerateControlData (pc : PackageContext) : String :=
  ("\n# Generated by melange."
    ++ "\npkgname = " ++ pc.PackageName
    ++ "\npkgver = " ++ pc.OriginVersion ++ "-r" ++ toString pc.OriginEpoch
    ++ "\narch = x86_64\nsize = " ++ toString pc.InstalledSize
    ++ "\npkgdesc = " ++ pc.OriginDescription
    ++ String.join (pc.OriginCopyright.map (fun l => "\nlicense = " ++ l))
    ++ String.join (pc.Dependencies.Runtime.map (fun d => "\ndepend = " ++ d))
    ++ String.join (pc.Dependencies.Provides.map (fun p => "\nprovides = " ++ p)))
  ++ ("\ndatahash = " ++ pc.DataHash ++ "\n")

/-- The body of the shared-object walk callback for one entry
(package.go lines 176-215): on an executable-by-all regular file,
append a `so:` provide when the base name contains `.so.`, then try
the file as ELF, silently skipping it when `elf.Open` fails, and
append a `so:` runtime entry per imported library otherwise. -/
def soWalkStep (generated : Dependencies) (e : WalkEntry) : Dependencies :=
  if e.kind = EntryKind.regular then
    if e.perm &&& 0o555 = 0o555 then
      let b := basename e.path
      let g1 :=
        if strContains b ".so." then
          { generated with
            Provides := generated.Provides ++ ["so:" ++ b ++ "=" ++ soVersion b] }
        else generated
      match e.elfLibs with
      | none => g1
      | some libs =>
          { g1 with Runtime := g1.Runtime ++ libs.map (fun lib => "so:" ++ lib) }
    else generated
  else generated

/-- `generateSharedObjectNameDeps` (package.go lines 162-223): walk the
tree, aborting at the first walk error, otherwise folding
`soWalkStep` over the entries. -/
def generateSharedObjectNameDeps (pc : PackageContext) (tree : List WalkItem)
    (generated : Dependencies) : Except String Dependencies :=
  match tree with
  | [] => Except.ok generated
  | WalkItem.err s :: _ => Except.error s
  | WalkItem.entry e :: rest =>
      generateSharedObjectNameDeps pc rest (soWalkStep generated e)

/-- The body of the command-provider walk callback for one entry
(package.go lines 142-152): on an executable-by-all regular file whose
path contains `"bin"`, append a `cmd:` provide carrying the origin
version and epoch. -/
def cmdWalkStep (pc : PackageContext) (generated : Dependencies)
    (e : WalkEntry) : Dependencies :=
  if e.kind = EntryKind.regular then
    if e.perm &&& 0o555 = 0o555 then
      if strContains e.path "bin" then
        { generated with
          Provides := generated.Provides ++
            ["cmd:" ++ basename e.path ++ "=" ++ pc.OriginVersion ++ "-r"
              ++ toString pc.OriginEpoch] }
      else generated
    else generated
  else generated

/-- `generateCmdProviders` (package.go lines 128-160). -/
def generateCmdProviders (pc : PackageContext) (tree : List WalkItem)
    (generated : Dependencies) : Except String Dependencies :=
  match tree with
  | [] => Except.ok generated
  | WalkItem.err s :: _ => Except.error s
  | WalkItem.entry e :: rest =>
      generateCmdProviders pc rest (cmdWalkStep pc generated e)

/-- `GenerateDependencies` (package.go lines 243-265): run the
shared-object generator then the command generator over the tree into
one accumulator, then merge each slot with the pre-declared
dependencies and `dedup` it. -/
def GenerateDependencies (pc : PackageContext) (tree : List WalkItem) :
    Except String PackageContext :=
  match generateSharedObjectNameDeps pc tree {} with
  | Except.error e => Except.error e
  | Except.ok g1 =>
    match generateCmdProviders pc tree g1 with
    | Except.error e => Except.error e
    | Except.ok g =>
        Except.ok { pc with
          Dependencies :=
            { Runtime := dedup (pc.Dependencies.Runtime ++ g.Runtime)
              Provides := dedup (pc.Dependencies.Provides ++ g.Provides) } }

/-- The sizing walk of `EmitPackage` (package.go lines 298-313):
`pc.InstalledSize += fi.Size()` for every walked entry, aborting at the
first walk error.  Note the source applies no regularity check here. -/
def sizeWalk : List WalkItem → Except String Int
  | [] => Except.ok 0
  | WalkItem.err s :: _ => Except.error s
  | WalkItem.entry e :: rest =>
    match sizeWalk rest with
    | Except.error s => Except.error s
    | Except.ok n => Except.ok (e.size + n)

/-- A temporary file (`os.CreateTemp` result): its content and the
current read/write offset. -/
structure TmpFile where
  content : List Nat := []
  pos : Nat := 0
  deriving DecidableEq, Repr

/-- Appending a write at the current end of the file. -/
def TmpFile.write (f : TmpFile) (bs : List Nat) : TmpFile :=
  { content := f.content ++ bs, pos := f.pos + bs.length }

/-- `Seek(0, io.SeekStart)`. -/
def TmpFile.seekStart (f : TmpFile) : TmpFile :=
  { content := f.content, pos := 0 }

/-- Reading the file to its end from the current offset, as
`io.Copy` does during `combine`. -/
def TmpFile.readAll (f : TmpFile) : List Nat :=
  f.content.drop f.pos

/-- `io.MultiWriter(digest, file)`: one write fans out to both sinks,
so the digest accumulator observes exactly the bytes persisted. -/
def multiWrite (digest : List Nat) (f : TmpFile) (bs : List Nat) :
    List Nat × TmpFile :=
  (digest ++ bs, f.write bs)

/-- The external collaborators of `EmitPackage`, abstracted: the
tarball serializer for the data tree, for the single-entry control
filesystem and for the signature filesystem, the two digest functions,
and the RSA signer (`sign.RSASignSHA1Digest`). -/
structure EmitEnv where
  dataArchive : List WalkItem → List Nat
  controlArchive : String → List Nat
  signatureArchive : List (String × List Nat) → List Nat
  sha256hex : List Nat → String
  sha1 : List Nat → List Nat
  rsaSign : List Nat → String → String → Except String (List Nat)

/-- What one successful `EmitPackage` produced: the final context, the
byte stream fed to the SHA-256 accumulator, the three (two when
unsigned) segment files after their rewinds, the rendered control
record, the control digest, the in-memory signature filesystem, and
the bytes written to the final `.apk` file. -/
structure EmitOutcome where
  pc : PackageContext
  dataDigestInput : List Nat
  dataFile : TmpFile
  control : String
  controlFile : TmpFile
  controlDigest : List Nat
  signatureFS : List (String × List Nat)
  signatureFile : Option TmpFile
  outBytes : List Nat
  deriving DecidableEq, Repr

/-- The states of `EmitPackage` after dependency generation
(package.go lines 320-424): write the data segment through the
SHA-256 fan-out, rewind it, render the control record with the final
data hash, write and rewind the control segment while computing its
SHA-1, optionally sign the control digest into a single-entry
signature filesystem and write/rewind a signature segment, then
concatenate [signature?, control, data] into the output file. -/
def finishEmit (env : EmitEnv) (tree : List WalkItem)
    (pc2 : PackageContext) : Except String EmitOutcome :=
  let dataBytes := env.dataArchive tree
  let fan := multiWrite [] {} dataBytes
  let dataHash := env.sha256hex fan.1
  let pc3 := { pc2 with DataHash := dataHash }
  let dataTarGz := fan.2.seekStart
  let control := GenerateControlData pc3
  let controlBytes := env.controlArchive control
  let cfan := multiWrite [] {} controlBytes
  let controlDigest := env.sha1 cfan.1
  let controlTarGz := cfan.2.seekStart
  if pc3.SigningKey = "" then
    Except.ok
      { pc := pc3
        dataDigestInput := fan.1
        dataFile := dataTarGz
        control := control
        controlFile := controlTarGz
        controlDigest := controlDigest
        signatureFS := []
        signatureFile := none
        outBytes := controlTarGz.readAll ++ dataTarGz.readAll }
  else
    match env.rsaSign controlDigest pc3.SigningKey pc3.SigningPassphrase with
    | Except.error e => Except.error ("unable to generate signature: " ++ e)
    | Except.ok sig =>
      let sigFS := [(SignatureName pc3, sig)]
      let sigTarGz := (TmpFile.write {} (env.signatureArchive sigFS)).seekStart
      Except.ok
        { pc := pc3
          dataDigestInput := fan.1
          dataFile := dataTarGz
          control := control
          controlFile := controlTarGz
          controlDigest := controlDigest
          signatureFS := sigFS
          signatureFile := some sigTarGz
          outBytes := sigTarGz.readAll ++ controlTarGz.readAll ++ dataTarGz.readAll }

/-- `EmitPackage` (package.go lines 278-425): size the tree, generate
dependencies, then run the segment/assembly states of `finishEmit`. -/
def emitPackage (env : EmitEnv) (pc0 : PackageContext)
    (tree : List WalkItem) : Except String EmitOutcome :=
  match sizeWalk tree with
  | Except.error e => Except.error ("unable to preprocess package data: " ++ e)
  | Except.ok sz =>
    match GenerateDependencies
        { pc0 with InstalledSize := pc0.InstalledSize + sz } tree with
    | Except.error e =>
        Except.error ("unable to build final dependencies set: " ++ e)
    | Except.ok pc2 => finishEmit env tree pc2

/-- The temp-file name patterns of the three `os.CreateTemp` calls. -/
def dataPat : String := "melange-data-*.tar.gz"

/-- Control segment temp-file pattern. -/
def controlPat : String := "melange-control-*.tar.gz"

/-- Signature segment temp-file pattern. -/
def sigPat : String := "melange-signature-*.tar.gz"

/-- The filesystem-affecting actions `EmitPackage` performs, in
program order: temp-file creation/write/close, output-directory
creation, output-file creation/write/close.  `removeTemp`/`removeOut`
are included so that their absence from every trace is expressible. -/
inductive FSEvent where
  | createTemp (pat : String)
  | writeTemp (pat : String)
  | closeTemp (pat : String)
  | removeTemp (pat : String)
  | mkdirAll
  | createOut
  | writeOut
  | writeOutTrunc
  | closeOut
  | removeOut
  deriving DecidableEq, Repr

/-- Where (if anywhere) this run of `EmitPackage` fails: each
constructor is one early-return site of the source. -/
inductive FailPoint where
  | success
  | sizingErr
  | depsErr
  | dataWriteErr
  | controlWriteErr
  | signErr
  | signatureWriteErr
  | createOutErr
  | combineErr
  deriving DecidableEq, Repr

/-- The filesystem trace of one `EmitPackage` run (package.go lines
278-425): the `defer f.Close()` handlers registered after each
`os.CreateTemp`/`os.Create` run in LIFO order at every return, and no
removal of any file ever occurs.  `signErr` and `signatureWriteErr`
describe runs with a signing key configured. -/
def emitEvents (signed : Bool) (fp : FailPoint) : List FSEvent :=
  let closes2 := [FSEvent.closeTemp controlPat, FSEvent.closeTemp dataPat]
  let closesSig :=
    (if signed then [FSEvent.closeTemp sigPat] else []) ++ closes2
  let upToControl :=
    [FSEvent.createTemp dataPat, FSEvent.writeTemp dataPat,
     FSEvent.createTemp controlPat, FSEvent.writeTemp controlPat]
  let upToOut :=
    upToControl ++
      (if signed then [FSEvent.createTemp sigPat, FSEvent.writeTemp sigPat]
       else [])
  match fp with
  | FailPoint.sizingErr => [FSEvent.createTemp dataPat, FSEvent.closeTemp dataPat]
  | FailPoint.depsErr => [FSEvent.createTemp dataPat, FSEvent.closeTemp dataPat]
  | FailPoint.dataWriteErr =>
      [FSEvent.createTemp dataPat, FSEvent.writeTemp dataPat,
       FSEvent.closeTemp dataPat]
  | FailPoint.controlWriteErr => upToControl ++ closes2
  | FailPoint.signErr => upToControl ++ closes2
  | FailPoint.signatureWriteErr =>
      upToControl ++
        [FSEvent.createTemp sigPat, FSEvent.writeTemp sigPat,
         FSEvent.closeTemp sigPat] ++ closes2
  | FailPoint.createOutErr => upToOut ++ [FSEvent.mkdirAll] ++ closesSig
  | FailPoint.combineErr =>
      upToOut ++
        [FSEvent.mkdirAll, FSEvent.createOut, FSEvent.writeOutTrunc,
         FSEvent.closeOut] ++ closesSig
  | FailPoint.success =>
      upToOut ++
        [FSEvent.mkdirAll, FSEvent.createOut, FSEvent.writeOut,
         FSEvent.closeOut] ++ closesSig

/-- Whether an event deletes a file. -/
def isRemoveEvent : FSEvent → Bool
  | FSEvent.removeTemp _ => true
  | FSEvent.removeOut => true
  | _ => false

/-- Every temp file created in the trace is also closed in it. -/
def closesAllTemps (evs : List FSEvent) : Bool :=
  evs.all fun e =>
    match e with
    | FSEvent.createTemp p => evs.contains (FSEvent.closeTemp p)
    | _ => true

/-- Characters with equal code points are equal. -/
lemma char_toNat_inj {a b : Char} (h : a.toNat = b.toNat) : a = b :=
  Char.ext (UInt32.ext (by exact_mod_cast h))

/-- `lexLe` is total. -/
lemma lexLe_total : ∀ as bs : List Char, lexLe as bs = true ∨ lexLe bs as = true
  | [], _ => Or.inl rfl
  | _ :: _, [] => Or.inr rfl
  | a :: as, b :: bs => by
    by_cases h1 : a.toNat < b.toNat
    · left; simp [lexLe, h1]
    · by_cases h2 : b.toNat < a.toNat
      · right; simp [lexLe, h2]
      · cases lexLe_total as bs with
        | inl h => left; simp [lexLe, h1, h2, h]
        | inr h => right; simp [lexLe, h1, h2, h]

/-- `lexLe` is transitive. -/
lemma lexLe_trans : ∀ as bs cs : List Char,
    lexLe as bs = true → lexLe bs cs = true → lexLe as cs = true
  | [], _, _, _, _ => rfl
  | _ :: _, [], _, h1, _ => by simp [lexLe] at h1
  | _ :: _, _ :: _, [], _, h2 => by simp [lexLe] at h2
  | a :: as, b :: bs, c :: cs, h1, h2 => by
    simp only [lexLe] at h1 h2 ⊢
    split at h1
    case isTrue hab =>
      split at h2
      case isTrue hbc => simp [show a.toNat < c.toNat by omega]
      case isFalse hbc =>
        split at h2
        case isTrue => exact absurd h2 (by simp)
        case isFalse hcb => simp [show a.toNat < c.toNat by omega]
    case isFalse hab =>
      split at h1
      case isTrue => exact absurd h1 (by simp)
      case isFalse hba =>
        split at h2
        case isTrue hbc => simp [show a.toNat < c.toNat by omega]
        case isFalse hbc =>
          split at h2
          case isTrue => exact absurd h2 (by simp)
          case isFalse hcb =>
            have hac : ¬a.toNat < c.toNat := by omega
            have hca : ¬c.toNat < a.toNat := by omega
            simp [hac, hca, lexLe_trans as bs cs h1 h2]

/-- `lexLe` is antisymmetric. -/
lemma lexLe_antisymm : ∀ as bs : List Char,
    lexLe as bs = true → lexLe bs as = true → as = bs
  | [], [], _, _ => rfl
  | [], _ :: _, _, h2 => by simp [lexLe] at h2
  | _ :: _, [], h1, _ => by simp [lexLe] at h1
  | a :: as, b :: bs, h1, h2 => by
    simp only [lexLe] at h1 h2
    split at h1
    case isTrue hab =>
      rw [if_neg (by omega : ¬b.toNat < a.toNat), if_pos hab] at h2
      exact absurd h2 (by simp)
    case isFalse hab =>
      split at h1
      case isTrue => exact absurd h1 (by simp)
      case isFalse hba =>
        have he : a = b := char_toNat_inj (by omega)
        rw [if_neg (by omega : ¬b.toNat < a.toNat),
          if_neg (by omega : ¬a.toNat < b.toNat)] at h2
        rw [he, lexLe_antisymm as bs h1 h2]

/-- `strLe` is total. -/
lemma strLe_total (a b : String) : strLe a b = true ∨ strLe b a = true :=
  lexLe_total a.data b.data

/-- `strLe` is transitive. -/
lemma strLe_trans {a b c : String} (h1 : strLe a b = true)
    (h2 : strLe b c = true) : strLe a c = true :=
  lexLe_trans a.data b.data c.data h1 h2

/-- `strLe` is antisymmetric. -/
lemma strLe_antisymm {a b : String} (h1 : strLe a b = true)
    (h2 : strLe b a = true) : a = b := by
  cases a with
  | mk da =>
    cases b with
    | mk db => rw [lexLe_antisymm da db h1 h2]

instance : IsTotal String (fun a b => strLe a b = true) := ⟨strLe_total⟩

instance : IsTrans String (fun a b => strLe a b = true) :=
  ⟨fun _ _ _ => strLe_trans⟩

/-- Every survivor of the `dedup` loop over a sorted tail following a
cursor that lower-bounds the tail is strictly above the cursor. -/
lemma dedupLoop_mem_prop (l : List String) : ∀ prev : String,
    List.Sorted (fun a b => strLe a b = true) l →
    (∀ x ∈ l, strLe prev x = true) →
    ∀ x ∈ dedupLoop prev l, strLe prev x = true ∧ x ≠ prev := by
  induction l with
  | nil => intro prev _ _ x hx; simp [dedupLoop] at hx
  | cons cur rest ih =>
    intro prev hsort hge x hx
    rw [List.sorted_cons] at hsort
    obtain ⟨hhead, htail⟩ := hsort
    rw [dedupLoop] at hx
    by_cases hc : cur = prev
    · rw [if_pos hc] at hx
      exact ih prev htail (fun y hy => hge y (List.mem_cons_of_mem _ hy)) x hx
    · rw [if_neg hc] at hx
      rcases List.mem_cons.mp hx with rfl | hx2
      · exact ⟨hge x (List.mem_cons_self _ _), hc⟩
      · have h2 := ih cur htail hhead x hx2
        refine ⟨strLe_trans (hge cur (List.mem_cons_self _ _)) h2.1, ?_⟩
        intro hxp
        subst hxp
        exact hc (strLe_antisymm h2.1 (hge cur (List.mem_cons_self _ _)))

/-- The `dedup` loop turns a sorted list into a strictly sorted one. -/
lemma dedupLoop_sorted (l : List String) : ∀ prev : String,
    List.Sorted (fun a b => strLe a b = true) l →
    List.Sorted (fun a b => strLe a b = true ∧ a ≠ b) (dedupLoop prev l) := by
  induction l with
  | nil => intro prev _; rw [dedupLoop]; exact List.sorted_nil
  | cons cur rest ih =>
    intro prev hsort
    rw [List.sorted_cons] at hsort
    obtain ⟨hhead, htail⟩ := hsort
    rw [dedupLoop]
    by_cases hc : cur = prev
    · rw [if_pos hc]; exact ih prev htail
    · rw [if_neg hc]
      rw [List.sorted_cons]
      refine ⟨?_, ih cur htail⟩
      intro b hb
      have h := dedupLoop_mem_prop rest cur htail hhead b hb
      exact ⟨h.1, fun hbe => h.2 hbe.symm⟩

/-- `dedup` output is sorted in the byte-wise lexicographic order. -/
lemma dedup_sorted (l : List String) :
    List.Sorted (fun a b => strLe a b = true) (dedup l) :=
  (dedupLoop_sorted _ "" (List.sorted_insertionSort _ l)).imp (fun h => h.1)

/-- `dedup` output has no duplicate entries, adjacent or not. -/
lemma dedup_nodup (l : List String) : (dedup l).Nodup :=
  (dedupLoop_sorted _ "" (List.sorted_insertionSort _ l)).imp (fun h => h.2)

/-- A list leads with itself followed by anything. -/
lemma leadsWith_append (p l : List Char) : leadsWith p (p ++ l) = true := by
  induction p with
  | nil => rfl
  | cons a as ih => simp [leadsWith, ih]

/-- A list that starts with `sub` contains `sub`. -/
lemma containsSub_here (sub l : List Char) : containsSub sub (sub ++ l) = true := by
  cases sub with
  | nil => cases l <;> simp [containsSub, leadsWith]
  | cons a as => simp [containsSub, leadsWith, leadsWith_append]

/-- Containment is preserved by consing on the left. -/
lemma containsSub_cons (sub : List Char) (c : Char) (l : List Char)
    (h : containsSub sub l = true) : containsSub sub (c :: l) = true := by
  simp [containsSub, h]

/-- Containment is preserved by appending on the left. -/
lemma containsSub_append_right (sub l1 l2 : List Char)
    (h : containsSub sub l2 = true) : containsSub sub (l1 ++ l2) = true := by
  induction l1 with
  | nil => simpa using h
  | cons c cs ih => rw [List.cons_append]; exact containsSub_cons _ _ _ ih

/-- A successful `GenerateDependencies` rewrites only the dependency
slots, each to the `dedup` of the pre-declared entries followed by the
generated ones. -/
lemma GenerateDependencies_ok (pc pc' : PackageContext) (tree : List WalkItem)
    (h : GenerateDependencies pc tree = Except.ok pc') :
    ∃ g : Dependencies, pc' = { pc with
      Dependencies :=
        { Runtime := dedup (pc.Dependencies.Runtime ++ g.Runtime)
          Provides := dedup (pc.Dependencies.Provides ++ g.Provides) } } := by
  unfold GenerateDependencies at h
  cases h1 : generateSharedObjectNameDeps pc tree {} with
  | error e => simp only [h1] at h; exact Except.noConfusion h
  | ok g1 =>
    simp only [h1] at h
    cases h2 : generateCmdProviders pc tree g1 with
    | error e => simp only [h2] at h; exact Except.noConfusion h
    | ok g =>
      simp only [h2] at h
      injection h with h3
      exact ⟨g, h3.symm⟩

/-- What a successful run of the post-dependency states of
`EmitPackage` looks like: the data digest accumulator saw exactly the
persisted data bytes, the control record was rendered from the context
carrying the final data hash, both temp segments sit rewound at
position 0, and the output is the in-order concatenation of the
(optional signature,) control and data segments. -/
lemma finishEmit_ok (env : EmitEnv) (tree : List WalkItem)
    (pc2 : PackageContext) (o : EmitOutcome)
    (h : finishEmit env tree pc2 = Except.ok o) :
    o.pc = { pc2 with DataHash := env.sha256hex (env.dataArchive tree) } ∧
    o.dataDigestInput = env.dataArchive tree ∧
    o.dataFile = { content := env.dataArchive tree, pos := 0 } ∧
    o.control = GenerateControlData o.pc ∧
    o.controlFile = { content := env.controlArchive o.control, pos := 0 } ∧
    o.controlDigest = env.sha1 (env.controlArchive o.control) ∧
    ((pc2.SigningKey = "" ∧ o.signatureFile = none ∧ o.signatureFS = [] ∧
        o.outBytes = o.controlFile.content ++ o.dataFile.content) ∨
      (pc2.SigningKey ≠ "" ∧ ∃ sig,
        env.rsaSign o.controlDigest pc2.SigningKey pc2.SigningPassphrase
            = Except.ok sig ∧
        o.signatureFS = [(SignatureName o.pc, sig)] ∧
        o.signatureFile =
          some { content := env.signatureArchive o.signatureFS, pos := 0 } ∧
        o.outBytes = env.signatureArchive o.signatureFS ++
          o.controlFile.content ++ o.dataFile.content)) := by
  simp only [finishEmit] at h
  split at h
  case isTrue hkey =>
    injection h with h2
    subst h2
    refine ⟨?_, ?_, ?_, ?_, ?_, ?_, Or.inl ⟨hkey, rfl, rfl, ?_⟩⟩ <;>
      simp [multiWrite, TmpFile.write, TmpFile.seekStart, TmpFile.readAll]
  case isFalse hkey =>
    cases hs : env.rsaSign
        (env.sha1 (multiWrite [] {}
          (env.controlArchive (GenerateControlData
            { pc2 with
              DataHash := env.sha256hex
                (multiWrite [] {} (env.dataArchive tree)).1 }))).1)
        pc2.SigningKey pc2.SigningPassphrase with
    | error e => rw [hs] at h; exact Except.noConfusion h
    | ok sig =>
      rw [hs] at h
      injection h with h2
      subst h2
      simp only [multiWrite, List.nil_append] at hs
      refine ⟨?_, ?_, ?_, ?_, ?_, ?_, Or.inr ⟨hkey, sig, ?_, rfl, ?_, ?_⟩⟩ <;>
        simp [multiWrite, TmpFile.write, TmpFile.seekStart, TmpFile.readAll, hs]

/-- A successful `EmitPackage` factors into a successful sizing walk,
a successful dependency generation from the size-updated context, and
a successful `finishEmit`. -/
lemma emitPackage_ok (env : EmitEnv) (pc0 : PackageContext)
    (tree : List WalkItem) (o : EmitOutcome)
    (h : emitPackage env pc0 tree = Except.ok o) :
    ∃ sz pc2, sizeWalk tree = Except.ok sz ∧
      GenerateDependencies
        { pc0 with InstalledSize := pc0.InstalledSize + sz } tree
          = Except.ok pc2 ∧
      finishEmit env tree pc2 = Except.ok o := by
  unfold emitPackage at h
  cases h1 : sizeWalk tree with
  | error e => simp only [h1] at h; exact Except.noConfusion h
  | ok sz =>
    simp only [h1] at h
    cases h2 : GenerateDependencies
        { pc0 with InstalledSize := pc0.InstalledSize + sz } tree with
    | error e => simp only [h2] at h; exact Except.noConfusion h
    | ok pc2 =>
      simp only [h2] at h
      exact ⟨sz, pc2, rfl, h2, h⟩

/-- The sizing walk, when it succeeds, returns the sum of `fi.Size()`
over every walked entry (of any kind). -/
lemma sizeWalk_ok_sum (tree : List WalkItem) : ∀ n : Int,
    sizeWalk tree = Except.ok n →
    n = (tree.filterMap (fun it =>
      match it with
      | WalkItem.entry e => some e.size
      | WalkItem.err _ => none)).sum := by
  induction tree with
  | nil =>
    intro n h
    injection h with h2
    subst h2
    simp
  | cons it rest ih =>
    intro n h
    cases it with
    | err s => simp [sizeWalk] at h
    | entry e =>
      simp only [sizeWalk] at h
      cases h3 : sizeWalk rest with
      | error s => rw [h3] at h; exact Except.noConfusion h
      | ok m =>
        rw [h3] at h
        injection h with h2
        subst h2
        rw [ih m h3]
        simp

/-- A concrete collaborator environment for witnesses. -/
def envW : EmitEnv :=
  { dataArchive := fun _ => [1, 2, 3]
    controlArchive := fun s => [s.length, 7]
    signatureArchive := fun fs => [fs.length, 9]
    sha256hex := fun bs => "h" ++ toString bs.length
    sha1 := fun bs => 0 :: bs
    rsaSign := fun d _ _ => Except.ok (5 :: d) }

/-- A concrete unsigned emission context. -/
def pcPlain : PackageContext :=
  { PackageName := "hello"
    OriginVersion := "1.0"
    OriginEpoch := 2
    OriginDescription := "test package"
    OriginCopyright := ["MIT"]
    OutDir := "out/x86_64"
    Arch := "x86_64"
    SigningKey := ""
    SigningPassphrase := ""
    Dependencies := {} }

/-- The same context with a signing key configured. -/
def pcSigned : PackageContext :=
  { pcPlain with SigningKey := "keys/melange.rsa", SigningPassphrase := "pw" }

/-- An executable-by-all regular file that is not a valid ELF object. -/
def soFile (p : String) : WalkEntry :=
  { path := p, kind := EntryKind.regular, perm := 0o755, size := 10,
    elfLibs := none }

/-- Claim C1, counterexample: the generator run on an executable
regular file named `libfoo.so` appends no `Provides` entry at all
(the guard requires the substring `.so.`, which `libfoo.so` lacks),
contradicting the claimed `so:libfoo.so=0`; and on
`libbar.so.1.so.2` it appends suffix `1` (the `strings.Split` field
between the first and second `.so.`), not the claimed text `1.so.2`
following the first occurrence. -/
theorem C1_counterexample :
    (generateSharedObjectNameDeps pcPlain [WalkItem.entry (soFile "libfoo.so")] {}
        = Except.ok { Runtime := [], Provides := [] }) ∧
    (generateSharedObjectNameDeps pcPlain
        [WalkItem.entry (soFile "libbar.so.1.so.2")] {}
        = Except.ok { Runtime := [], Provides := ["so:libbar.so.1.so.2=1"] }) ∧
    ("so:libbar.so.1.so.2=1" ≠ "so:libbar.so.1.so.2=1.so.2") :=
  ⟨rfl, rfl, by decide⟩

/-- Claim C1 (amended): for every regular file whose permission bits
have all of 0555 set and whose base name contains `.so.`, the
shared-object generator appends a Provides entry
`so:<basename>=<v>` where `<v>` is the second `strings.Split` field of
the base name on `.so.` (`soVersion`) — the text between the first and
second occurrences, or the whole remainder when `.so.` occurs exactly
once; the `"0"` default is unreachable under the guard, and a name
without `.so.` (such as `libfoo.so`) yields no entry. -/
theorem C1_amended_theorem (pc : PackageContext) (e : WalkEntry)
    (g : Dependencies) (hreg : e.kind = EntryKind.regular)
    (hperm : e.perm &&& 0o555 = 0o555)
    (hso : strContains (basename e.path) ".so." = true) :
    ∃ d, generateSharedObjectNameDeps pc [WalkItem.entry e] g = Except.ok d ∧
      d.Provides = g.Provides ++
        ["so:" ++ basename e.path ++ "=" ++ soVersion (basename e.path)] := by
  refine ⟨soWalkStep g e, rfl, ?_⟩
  unfold soWalkStep
  rw [if_pos hreg, if_pos hperm]
  cases hlibs : e.elfLibs <;> simp [hlibs, hso]

/-- Claim C1 (amended), witness at `libfoo.so.1.2`, whose computed
suffix is `1.2`. -/
theorem C1_amended_witness :
    (∃ d, generateSharedObjectNameDeps pcPlain
        [WalkItem.entry (soFile "libfoo.so.1.2")] {} = Except.ok d ∧
      d.Provides = ({} : Dependencies).Provides ++
        ["so:" ++ basename "libfoo.so.1.2" ++ "=" ++
          soVersion (basename "libfoo.so.1.2")]) ∧
    soVersion (basename "libfoo.so.1.2") = "1.2" :=
  ⟨C1_amended_theorem pcPlain (soFile "libfoo.so.1.2") {} rfl (by decide)
      (by decide),
    by decide⟩

/-- The sizing rule as the spec words it, for comparison with the
source's walk: sum of the byte sizes of exactly the regular files. -/
def specRegularSizeSum (tree : List WalkItem) : Int :=
  (tree.filterMap (fun it =>
    match it with
    | WalkItem.entry e =>
        if e.kind = EntryKind.regular then some e.size else none
    | WalkItem.err _ => none)).sum

/-- A directory entry as reported by the walk (directories report a
non-zero `fi.Size()` on common filesystems). -/
def dirEntry : WalkEntry :=
  { path := ".", kind := EntryKind.dir, perm := 0o755, size := 4096,
    elfLibs := none }

/-- A small non-executable regular file. -/
def regEntry : WalkEntry :=
  { path := "usr/f.txt", kind := EntryKind.regular, perm := 0o644, size := 10,
    elfLibs := none }

/-- A tree whose only regular file has size 10 but whose walk also
visits a size-4096 directory. -/
def treeC2 : List WalkItem := [WalkItem.entry dirEntry, WalkItem.entry regEntry]

/-- Claim C2, counterexample: on `treeC2` the sizing state of
`EmitPackage` leaves `InstalledSize = 4106` (the directory's 4096 is
added — the walk body has no regularity check), while the sum over
regular files only, as the claim states it, is 10. -/
theorem C2_counterexample :
    (∃ o, emitPackage envW pcPlain treeC2 = Except.ok o ∧
      o.pc.InstalledSize = 4106) ∧
    specRegularSizeSum treeC2 = 10 ∧ (4106 : Int) ≠ 10 :=
  ⟨⟨_, rfl, rfl⟩, rfl, by decide⟩

/-- Claim C2 (amended): after the sizing state of a successful
`EmitPackage`, `InstalledSize` equals its prior value plus the sum of
`fi.Size()` over every entry the walk visits — directories, symlinks
and other non-regular entries included, not only regular files. -/
theorem C2_amended_theorem (env : EmitEnv) (pc : PackageContext)
    (tree : List WalkItem) (o : EmitOutcome)
    (h : emitPackage env pc tree = Except.ok o) :
    o.pc.InstalledSize = pc.InstalledSize +
      (tree.filterMap (fun it =>
        match it with
        | WalkItem.entry e => some e.size
        | WalkItem.err _ => none)).sum := by
  obtain ⟨sz, pc2, h1, h2, h3⟩ := emitPackage_ok env pc tree o h
  obtain ⟨g, rfl⟩ := GenerateDependencies_ok _ _ _ h2
  have h4 := (finishEmit_ok _ _ _ _ h3).1
  have h5 := sizeWalk_ok_sum tree sz h1
  subst h5
  rw [h4]

/-- Claim C2 (amended), witness on `treeC2`. -/
theorem C2_amended_witness :
    ∃ o, emitPackage envW pcPlain treeC2 = Except.ok o ∧
      o.pc.InstalledSize = pcPlain.InstalledSize +
        (treeC2.filterMap (fun it =>
          match it with
          | WalkItem.entry e => some e.size
          | WalkItem.err _ => none)).sum :=
  ⟨_, rfl, C2_amended_theorem envW pcPlain treeC2 _ rfl⟩

/-- Claim C3: a successful `EmitPackage` leaves both the data and
control segments rewound to position 0, and the final output bytes are
exactly [control ++ data] when no signing key is configured, and
[signature ++ control ++ data] (with the signature segment also
rewound) when one is. -/
theorem C3_theorem (env : EmitEnv) (pc : PackageContext)
    (tree : List WalkItem) (o : EmitOutcome)
    (h : emitPackage env pc tree = Except.ok o) :
    o.dataFile.pos = 0 ∧ o.controlFile.pos = 0 ∧
    (pc.SigningKey = "" →
      o.signatureFile = none ∧
      o.outBytes = o.controlFile.content ++ o.dataFile.content) ∧
    (pc.SigningKey ≠ "" →
      ∃ f, o.signatureFile = some f ∧ f.pos = 0 ∧
        o.outBytes = f.content ++ o.controlFile.content ++ o.dataFile.content) := by
  obtain ⟨sz, pc2, h1, h2, h3⟩ := emitPackage_ok env pc tree o h
  obtain ⟨g, rfl⟩ := GenerateDependencies_ok _ _ _ h2
  obtain ⟨hpc, hdig, hdataf, hctl, hctlf, hctldig, hcase⟩ :=
    finishEmit_ok _ _ _ _ h3
  refine ⟨?_, ?_, ?_, ?_⟩
  · rw [hdataf]
  · rw [hctlf]
  · intro hk
    rcases hcase with ⟨hk2, hnone, hfs, hout⟩ | ⟨hk2, _⟩
    · exact ⟨hnone, hout⟩
    · exact absurd hk hk2
  · intro hk
    rcases hcase with ⟨hk2, _⟩ | ⟨hk2, sig, hsig, hfs, hfile, hout⟩
    · exact absurd hk2 hk
    · exact ⟨_, hfile, rfl, hout⟩

/-- Claim C3, witness: a signed concrete emission. -/
theorem C3_witness :
    ∃ o, emitPackage envW pcSigned ([] : List WalkItem) = Except.ok o ∧
      (o.dataFile.pos = 0 ∧ o.controlFile.pos = 0 ∧
        (pcSigned.SigningKey = "" →
          o.signatureFile = none ∧
          o.outBytes = o.controlFile.content ++ o.dataFile.content) ∧
        (pcSigned.SigningKey ≠ "" →
          ∃ f, o.signatureFile = some f ∧ f.pos = 0 ∧
            o.outBytes = f.content ++ o.controlFile.content ++ o.dataFile.content)) :=
  ⟨_, rfl, C3_theorem envW pcSigned [] _ rfl⟩

/-- The rendered control record ends with its `datahash` field. -/
lemma GenerateControlData_datahash (pc : PackageContext) :
    ∃ pre, GenerateControlData pc = pre ++ ("\ndatahash = " ++ pc.DataHash ++ "\n") :=
  ⟨_, rfl⟩

/-- Claim C4: in a successful `EmitPackage`, the SHA-256 accumulator
observed exactly the bytes persisted into the data segment, the final
context's `DataHash` is the digest of those bytes, and the rendered
control record carries that final digest in its `datahash` field (the
record is rendered only after the digest is final). -/
theorem C4_theorem (env : EmitEnv) (pc : PackageContext)
    (tree : List WalkItem) (o : EmitOutcome)
    (h : emitPackage env pc tree = Except.ok o) :
    o.dataDigestInput = o.dataFile.content ∧
    o.pc.DataHash = env.sha256hex o.dataFile.content ∧
    ∃ pre, o.control =
      pre ++ ("\ndatahash = " ++ env.sha256hex o.dataFile.content ++ "\n") := by
  obtain ⟨sz, pc2, h1, h2, h3⟩ := emitPackage_ok env pc tree o h
  obtain ⟨hpc, hdig, hdataf, hctl, _, _, _⟩ := finishEmit_ok _ _ _ _ h3
  refine ⟨?_, ?_, ?_⟩
  · rw [hdig, hdataf]
  · rw [hpc, hdataf]
  · obtain ⟨pre, hpre⟩ := GenerateControlData_datahash o.pc
    refine ⟨pre, ?_⟩
    rw [hctl, hpre, hpc, hdataf]

/-- Claim C4, witness. -/
theorem C4_witness :
    ∃ o, emitPackage envW pcPlain ([] : List WalkItem) = Except.ok o ∧
      (o.dataDigestInput = o.dataFile.content ∧
        o.pc.DataHash = envW.sha256hex o.dataFile.content ∧
        ∃ pre, o.control =
          pre ++ ("\ndatahash = " ++ envW.sha256hex o.dataFile.content ++ "\n")) :=
  ⟨_, rfl, C4_theorem envW pcPlain [] _ rfl⟩

/-- Claim C5: every successful dependency merge leaves `Runtime` and
`Provides` sorted in the byte-wise lexicographic order with no
duplicate entries (adjacent or not), and the claim's example input
dedups to its example output. -/
theorem C5_theorem (pc pc' : PackageContext) (tree : List WalkItem)
    (h : GenerateDependencies pc tree = Except.ok pc') :
    (List.Sorted (fun a b => strLe a b = true) pc'.Dependencies.Runtime ∧
      pc'.Dependencies.Runtime.Nodup ∧
      List.Sorted (fun a b => strLe a b = true) pc'.Dependencies.Provides ∧
      pc'.Dependencies.Provides.Nodup) ∧
    dedup ["so:libc.so.6", "so:libc.so.6", "cmd:foo=1-r0"]
      = ["cmd:foo=1-r0", "so:libc.so.6"] := by
  obtain ⟨g, rfl⟩ := GenerateDependencies_ok _ _ _ h
  exact ⟨⟨dedup_sorted _, dedup_nodup _, dedup_sorted _, dedup_nodup _⟩, rfl⟩

/-- A context with duplicated pre-declared dependencies. -/
def pcDup : PackageContext :=
  { pcPlain with
    Dependencies := { Runtime := ["b", "a", "b"], Provides := ["z", "z"] } }

/-- Claim C5, witness. -/
theorem C5_witness :
    ∃ pc', GenerateDependencies pcDup ([] : List WalkItem) = Except.ok pc' ∧
      ((List.Sorted (fun a b => strLe a b = true) pc'.Dependencies.Runtime ∧
          pc'.Dependencies.Runtime.Nodup ∧
          List.Sorted (fun a b => strLe a b = true) pc'.Dependencies.Provides ∧
          pc'.Dependencies.Provides.Nodup) ∧
        dedup ["so:libc.so.6", "so:libc.so.6", "cmd:foo=1-r0"]
          = ["cmd:foo=1-r0", "so:libc.so.6"]) :=
  ⟨_, rfl, C5_theorem pcDup _ [] rfl⟩

/-- Claim C6, counterexample: even on a fully successful emission the
trace of `EmitPackage` contains the creation of the data and control
temp segments but no removal event of any kind — the deferred handlers
only close the files, they never delete them from transient storage;
and when the final concatenation fails, the trace contains the
creation and a truncated write of the output file with no removal, so
a partial output file is left in the final write path's directory. -/
theorem C6_counterexample :
    ((emitEvents false FailPoint.success).filter isRemoveEvent = [] ∧
      FSEvent.createTemp dataPat ∈ emitEvents false FailPoint.success ∧
      FSEvent.createTemp controlPat ∈ emitEvents false FailPoint.success) ∧
    (FSEvent.createOut ∈ emitEvents false FailPoint.combineErr ∧
      FSEvent.writeOutTrunc ∈ emitEvents false FailPoint.combineErr ∧
      FSEvent.removeOut ∉ emitEvents false FailPoint.combineErr ∧
      (emitEvents false FailPoint.combineErr).filter isRemoveEvent = []) := by
  decide

/-- Claim C6 (amended): on every exit path of `EmitPackage` (success
or any failing state, signed or not) every temp segment file that was
created is closed by its deferred handler, but no file — temp segment
or output — is ever removed; in particular, after a failing final
concatenation the created output file is still present (not removed),
holding a truncated write. -/
theorem C6_amended_theorem (signed : Bool) (fp : FailPoint) :
    closesAllTemps (emitEvents signed fp) = true ∧
    (emitEvents signed fp).filter isRemoveEvent = [] ∧
    (emitEvents signed FailPoint.combineErr).contains FSEvent.createOut = true ∧
    (emitEvents signed FailPoint.combineErr).contains FSEvent.removeOut = false := by
  cases signed <;> cases fp <;> decide

/-- Claim C7: when a signing key is configured, a successful
`EmitPackage` builds a signature filesystem holding exactly one entry,
named `.SIGN.RSA.<base name of the signing-key path>.pub` (by melange
convention the public key lives at `<signing key>.pub`, so this is the
public key's base name), whose content is the raw signature produced
by the RSA signer over the control segment's digest. -/
theorem C7_theorem (env : EmitEnv) (pc : PackageContext)
    (tree : List WalkItem) (o : EmitOutcome) (hk : pc.SigningKey ≠ "")
    (h : emitPackage env pc tree = Except.ok o) :
    ∃ sig, env.rsaSign o.controlDigest pc.SigningKey pc.SigningPassphrase
        = Except.ok sig ∧
      o.signatureFS = [(".SIGN.RSA." ++ basename pc.SigningKey ++ ".pub", sig)] ∧
      o.controlDigest = env.sha1 o.controlFile.content := by
  obtain ⟨sz, pc2, h1, h2, h3⟩ := emitPackage_ok env pc tree o h
  obtain ⟨g, rfl⟩ := GenerateDependencies_ok _ _ _ h2
  obtain ⟨hpc, _, _, _, hctlf, hctldig, hcase⟩ := finishEmit_ok _ _ _ _ h3
  rcases hcase with ⟨hk2, _⟩ | ⟨_, sig, hsig, hfs, _, _⟩
  · exact absurd hk2 hk
  · refine ⟨sig, hsig, ?_, ?_⟩
    · rw [hfs, hpc]; rfl
    · rw [hctldig, hctlf]

/-- Claim C7, witness. -/
theorem C7_witness :
    pcSigned.SigningKey ≠ "" ∧
    ∃ o, emitPackage envW pcSigned ([] : List WalkItem) = Except.ok o ∧
      ∃ sig, envW.rsaSign o.controlDigest pcSigned.SigningKey
          pcSigned.SigningPassphrase = Except.ok sig ∧
        o.signatureFS
          = [(".SIGN.RSA." ++ basename pcSigned.SigningKey ++ ".pub", sig)] ∧
        o.controlDigest = envW.sha1 o.controlFile.content :=
  ⟨by decide, _, rfl, C7_theorem envW pcSigned [] _ (by decide) rfl⟩

/-- Claim C8: an executable-bit regular file that is not a valid ELF
object contributes no `Runtime` imported-library entry and produces no
error from the shared-object generator (it is silently skipped), while
a filesystem walk error makes the whole `GenerateDependencies`
pipeline abort with that error. -/
theorem C8_theorem (pc : PackageContext) (e : WalkEntry) (g : Dependencies)
    (hreg : e.kind = EntryKind.regular) (helf : e.elfLibs = none) :
    (∃ d, generateSharedObjectNameDeps pc [WalkItem.entry e] g = Except.ok d ∧
      d.Runtime = g.Runtime) ∧
    (∀ (pcW : PackageContext) (s : String) (rest : List WalkItem),
      GenerateDependencies pcW (WalkItem.err s :: rest) = Except.error s) := by
  constructor
  · refine ⟨soWalkStep g e, rfl, ?_⟩
    unfold soWalkStep
    rw [if_pos hreg, helf]
    by_cases hperm : e.perm &&& 0o555 = 0o555
    · rw [if_pos hperm]
      by_cases hso : strContains (basename e.path) ".so." = true
      · simp [hso]
      · simp [hso]
    · rw [if_neg hperm]
  · intro pcW s rest
    rfl

/-- Claim C8, witness: an executable shell script with no valid ELF
header. -/
theorem C8_witness :
    (∃ d, generateSharedObjectNameDeps pcPlain
        [WalkItem.entry (soFile "usr/bin/run.sh")] {} = Except.ok d ∧
      d.Runtime = ({} : Dependencies).Runtime) ∧
    (∀ (pcW : PackageContext) (s : String) (rest : List WalkItem),
      GenerateDependencies pcW (WalkItem.err s :: rest) = Except.error s) :=
  C8_theorem pcPlain (soFile "usr/bin/run.sh") {} rfl rfl

/-- Claim C9: for every regular file whose permission bits have all of
0555 set and whose path contains the substring `bin`, the command
generator appends the Provides entry
`cmd:<basename>=<version>-r<epoch>`. -/
theorem C9_theorem (pc : PackageContext) (e : WalkEntry) (g : Dependencies)
    (hreg : e.kind = EntryKind.regular) (hperm : e.perm &&& 0o555 = 0o555)
    (hbin : strContains e.path "bin" = true) :
    generateCmdProviders pc [WalkItem.entry e] g =
      Except.ok { g with Provides := g.Provides ++
        ["cmd:" ++ basename e.path ++ "=" ++ pc.OriginVersion ++ "-r"
          ++ toString pc.OriginEpoch] } := by
  show Except.ok (cmdWalkStep pc g e) = _
  unfold cmdWalkStep
  rw [if_pos hreg, if_pos hperm, if_pos hbin]

/-- A package context with version `1.0` and epoch 3. -/
def pcFrob : PackageContext := { pcPlain with OriginEpoch := 3 }

/-- An executable command at `usr/bin/frobnicate`. -/
def binFile : WalkEntry :=
  { path := "usr/bin/frobnicate", kind := EntryKind.regular, perm := 0o755,
    size := 5, elfLibs := none }

/-- Claim C9, witness: `usr/bin/frobnicate` with version `1.0` and
epoch 3 yields `cmd:frobnicate=1.0-r3`. -/
theorem C9_witness :
    generateCmdProviders pcFrob [WalkItem.entry binFile] {} =
      Except.ok { Runtime := [], Provides := ["cmd:frobnicate=1.0-r3"] } := by
  have h := C9_theorem pcFrob binFile {} rfl (by decide) (by decide)
  exact h

/-- A concrete non-x86_64 build configuration. -/
def ctxAarch : Context :=
  { OutDir := "packages"
    Arch := "aarch64"
    SigningKey := ""
    SigningPassphrase := ""
    PackageVersion := "1.0"
    PackageEpoch := 0
    PackageDescription := "d"
    PackageCopyright := [] }

/-- Claim C10: the control record always carries the fixed literal
line `arch = x86_64` and is unchanged by the configured architecture
token, while the output file path contains that configured token — so
for a concrete `aarch64` build the rendered record still says
`x86_64` (and not `aarch64`) while the path says `aarch64`. -/
theorem C10_theorem (ctx : Context) (name : String) (deps : Dependencies) :
    strContains (GenerateControlData (mkPackageContext ctx name deps))
      "arch = x86_64" = true ∧
    (∀ a b : String,
      GenerateControlData (mkPackageContext { ctx with Arch := a } name deps) =
        GenerateControlData (mkPackageContext { ctx with Arch := b } name deps)) ∧
    strContains (Filename (mkPackageContext ctx name deps)) ctx.Arch = true ∧
    (strContains (GenerateControlData (mkPackageContext ctxAarch "pkg" {}))
        ("arch = " ++ ctxAarch.Arch) = false ∧
      strContains (Filename (mkPackageContext ctxAarch "pkg" {}))
        ctxAarch.Arch = true) := by
  refine ⟨?_, fun a b => rfl, ?_, by decide⟩
  · unfold strContains
    simp only [GenerateControlData, mkPackageContext, String.data_append,
      List.append_assoc]
    apply containsSub_append_right
    apply containsSub_append_right
    apply containsSub_append_right
    apply containsSub_append_right
    apply containsSub_append_right
    apply containsSub_append_right
    apply containsSub_append_right
    simp only [List.cons_append, List.nil_append, List.append_assoc]
    apply containsSub_cons
    exact containsSub_here _ _
  · unfold strContains
    simp only [Filename, Identity, mkPackageContext, String.data_append,
      List.append_assoc]
    apply containsSub_append_right
    apply containsSub_append_right
    exact containsSub_here _ _
